import Mathlib

/-!
Shallow embedding of the langerhans/btcd AuxPoW core:
`src/doge/auxpow.go`, `src/doge/validation.go`, `src/wire/auxblockheader.go`.

Machine integers are modelled as `Int`/`Nat` with explicit reductions
modulo `2 ^ w`.  Go's `/` and `%` on signed integers truncate toward zero,
so they are embedded as `Int.tdiv` / `Int.tmod`.  A Go function that can
fail (return a non-nil error, or panic on a negative shift count) is
embedded with `Option`; a Go call whose error is discarded is embedded as
a total state transformer together with a success flag.
-/

namespace BtcdAux

/-- Unsigned 32-bit representative of a Go `int32` value (two's complement). -/
def u32ofInt (v : Int) : Nat := (v % (2 ^ 32 : Int)).toNat

/-- Reinterpret an unsigned 32-bit value as a Go `int32`. -/
def i32ofU32 (n : Nat) : Int := if n < 2 ^ 31 then (n : Int) else (n : Int) - 2 ^ 32

/-- Go two's-complement bitwise AND of two `int32` values. -/
def int32And (a b : Int) : Int := i32ofU32 (Nat.land (u32ofInt a) (u32ofInt b))

/-- Reduction of a mathematical integer to Go `int64` wraparound semantics. -/
def int64wrap (x : Int) : Int := (x + 2 ^ 63) % 2 ^ 64 - 2 ^ 63

/-! ## Package `doge` (`src/doge/auxpow.go`, `src/doge/validation.go`) -/

/-- Constant `blockMinVersionAuxpow` from `src/doge/auxpow.go`. -/
def blockMinVersionAuxpow : Int := 0x00620002

/-- Constant `blockVersionFlagAuxpow` from `src/doge/auxpow.go`. -/
def blockVersionFlagAuxpow : Int := 0x00000100

/-- Constant `versionAuxPow = 1 << 8` from `src/doge/auxpow.go`. -/
def versionAuxPow : Int := 1 <<< 8

/-- Embedding of `IsAuxPoWBlockVersion` from `src/doge/auxpow.go`:
`version >= blockMinVersionAuxpow && (version & blockVersionFlagAuxpow) > 0`. -/
def IsAuxPoWBlockVersion (version : Int) : Bool :=
  decide (blockMinVersionAuxpow ≤ version) &&
    decide (0 < int32And version blockVersionFlagAuxpow)

/-- Embedding of `GetBaseVersion` from `src/doge/auxpow.go`:
`version % versionAuxPow` with Go's truncating remainder. -/
def GetBaseVersion (version : Int) : Int := version.tmod versionAuxPow

/-- Constant `digishieldBlockHeight` from `src/doge/validation.go`. -/
def digishieldBlockHeight : Int := 145000

/-- Constant `baseSubsidy` from `src/doge/validation.go` (500k DOGE in satoshi). -/
def baseSubsidy : Int := 50000000000000

/-- Constant `subsidyDecreaseBlockCount` from `src/doge/validation.go`. -/
def subsidyDecreaseBlockCount : Int := 100000

/-- Embedding of `CalcBlockSubsidy` from `src/doge/validation.go`.
The shift count is `height / subsidyDecreaseBlockCount` with Go's
truncating `int32` division; a negative shift count is a Go runtime
panic, embedded as `none`.  The left shift and the multiplication are
performed in `int64` wraparound arithmetic. -/
def CalcBlockSubsidy (height : Int) : Option Int :=
  if height < digishieldBlockHeight then
    let s := height.tdiv subsidyDecreaseBlockCount
    if s < 0 then none
    else some (int64wrap (int64wrap (baseSubsidy * 2 ^ s.toNat) * 2))
  else if height < 600000 then
    let s := height.tdiv subsidyDecreaseBlockCount
    if s < 0 then none
    else some (int64wrap (baseSubsidy * 2 ^ s.toNat))
  else
    some baseSubsidy

/-! ## Byte-stream primitives for the `wire` package

A stream is a `List Nat` of byte values.  Reads that go through a scratch
buffer (`binarySerializer`) leave their target unchanged on truncation,
while `io.ReadFull` into a caller-owned 32-byte array writes the bytes it
did obtain before failing; both drain the stream on truncation. -/

/-- Little-endian encoding of the low `n` bytes of a natural number. -/
def toLE : Nat → Nat → List Nat
  | 0, _ => []
  | n + 1, v => v % 256 :: toLE n (v / 256)

/-- Little-endian decoding of a byte list to a natural number. -/
def fromLE (bs : List Nat) : Nat := bs.foldr (fun b acc => b + 256 * acc) 0

/-- Unsigned 64-bit representative of a Go `int64` value (two's complement). -/
def u64ofInt (v : Int) : Nat := (v % (2 ^ 64 : Int)).toNat

/-- Read exactly `n` bytes; `none` on a truncated stream (`io.ReadFull`). -/
def readBytes (n : Nat) (s : List Nat) : Option (List Nat × List Nat) :=
  if n ≤ s.length then some (s.take n, s.drop n) else none

/-- Read `n` bytes into a caller-owned buffer `old` of length `n`
(`io.ReadFull` semantics): on truncation the available bytes overwrite the
front of `old`, the stream is drained, and the flag reports failure. -/
def readFullInto (old : List Nat) (n : Nat) (s : List Nat) :
    List Nat × List Nat × Bool :=
  if n ≤ s.length then (s.take n, s.drop n, true)
  else (s ++ old.drop s.length, [], false)

/-- Read a `uint32` through a scratch buffer: on truncation nothing is
assigned and the stream is drained. -/
def readU32scr (s : List Nat) : Option Nat × List Nat :=
  if 4 ≤ s.length then (some (fromLE (s.take 4)), s.drop 4) else (none, [])

/-- Read a `uint64` through a scratch buffer. -/
def readU64scr (s : List Nat) : Option Nat × List Nat :=
  if 8 ≤ s.length then (some (fromLE (s.take 8)), s.drop 8) else (none, [])

/-- Modelled from the spec: the compact variable-width unsigned integer
codec (`ReadVarInt` of the wire package, absent from the sources): one
byte for values below 0xfd, otherwise a marker byte followed by a 2-, 4-
or 8-byte little-endian payload.  On truncation no value is produced and
the stream is drained. -/
def ReadVarIntSt (s : List Nat) : Option Nat × List Nat :=
  match s with
  | [] => (none, [])
  | d :: rest =>
    if d < 0xfd then (some d, rest)
    else
      let n : Nat := if d = 0xfd then 2 else if d = 0xfe then 4 else 8
      if n ≤ rest.length then (some (fromLE (rest.take n)), rest.drop n)
      else (none, [])

/-- Modelled from the spec: the compact variable-width unsigned integer
encoder (`WriteVarInt` of the wire package, absent from the sources). -/
def WriteVarInt (n : Nat) : List Nat :=
  if n < 0xfd then [n]
  else if n ≤ 0xffff then 0xfd :: toLE 2 n
  else if n ≤ 0xffffffff then 0xfe :: toLE 4 n
  else 0xff :: toLE 8 n

/-- The all-zero 32-byte hash (the zero value of `chainhash.Hash`). -/
def zero32 : List Nat := List.replicate 32 0

/-! ## Data model of `src/wire/auxblockheader.go`

The transaction type `MsgTx` and its codec are external collaborators of
the file under verification; they are modelled from the spec (an external
transaction codec with the conventional base encoding: version, inputs,
outputs, lock time). -/

/-- Modelled from the spec: the out point of a transaction input. -/
structure OutPoint where
  hash : List Nat := zero32
  index : Nat := 0
deriving DecidableEq

/-- Modelled from the spec: a transaction input. -/
structure TxIn where
  previousOutPoint : OutPoint := {}
  signatureScript : List Nat := []
  sequence : Nat := 0
deriving DecidableEq

/-- Modelled from the spec: a transaction output. -/
structure TxOut where
  value : Int := 0
  pkScript : List Nat := []
deriving DecidableEq

/-- Modelled from the spec: the external transaction type `MsgTx`. -/
structure MsgTx where
  version : Int := 0
  txIn : List TxIn := []
  txOut : List TxOut := []
  lockTime : Nat := 0
deriving DecidableEq

/-- `MerkleBranch` from `src/wire/auxblockheader.go`. -/
structure MerkleBranch where
  linkHashes : List (List Nat) := []
  branchSidesBitmask : Int := 0
deriving DecidableEq

/-- `ParentBlock` from `src/wire/auxblockheader.go`. -/
structure ParentBlock where
  version : Int := 0
  prevBlock : List Nat := zero32
  merkleRoot : List Nat := zero32
  timestamp : Nat := 0
  bits : Nat := 0
  nonce : Nat := 0
deriving DecidableEq

/-- `AuxBlockHeader` from `src/wire/auxblockheader.go`. -/
structure AuxBlockHeader where
  parentCoinbase : MsgTx := {}
  parentBlockHash : List Nat := zero32
  coinbaseBranch : MerkleBranch := {}
  blockchainBranch : MerkleBranch := {}
  parentBlock : ParentBlock := {}
deriving DecidableEq

/-- Modelled from the spec: the plain block header shape of the wire
package (absent from the sources), whose auxiliary-payload field holds an
`AuxBlockHeader`. -/
structure BlockHeader where
  version : Int
  prevBlock : List Nat
  merkleRoot : List Nat
  timestamp : Nat
  bits : Nat
  nonce : Nat
  auxData : AuxBlockHeader
deriving DecidableEq

/-- The Go zero value of `AuxBlockHeader`. -/
def zeroAuxBlockHeader : AuxBlockHeader := {}

/-- Embedding of `ParentBlock.ToBlockHeader` from
`src/wire/auxblockheader.go`: copy the six header fields and set the
auxiliary payload to the zero value. -/
def ParentBlock.ToBlockHeader (pb : ParentBlock) : BlockHeader :=
  { version := pb.version
    prevBlock := pb.prevBlock
    merkleRoot := pb.merkleRoot
    timestamp := pb.timestamp
    bits := pb.bits
    nonce := pb.nonce
    auxData := {} }

/-- Reinterpret an unsigned 64-bit value as a Go `int64`. -/
def i64ofU64 (n : Nat) : Int := if n < 2 ^ 63 then (n : Int) else (n : Int) - 2 ^ 64

/-! ## Modelled transaction codec

`MsgTx.BtcDecode` and `MsgTx.BtcEncode` are external collaborators of the
file under verification and are modelled from the spec: a transaction
codec with the conventional base layout (version, input count, inputs,
output count, outputs, lock time).  Decoding is a total state
transformer returning the partially updated transaction, the remaining
stream and a success flag, because `readAuxBlockHeader` discards its
error and keeps reading from wherever the failed decode stopped. -/

/-- Modelled from the spec: decode of a 36-byte out point. -/
def readOutPointIgn (s : List Nat) : OutPoint × List Nat × Bool :=
  let (h, s1, ok1) := readFullInto zero32 32 s
  if !ok1 then ({ hash := h }, s1, false)
  else match readU32scr s1 with
    | (none, s2) => ({ hash := h }, s2, false)
    | (some idx, s2) => ({ hash := h, index := idx }, s2, true)

/-- Modelled from the spec: decode of a length-prefixed byte vector. -/
def readVarBytesIgn (s : List Nat) : List Nat × List Nat × Bool :=
  match ReadVarIntSt s with
  | (none, s1) => ([], s1, false)
  | (some n, s1) =>
    let (b, s2, ok) := readFullInto (List.replicate n 0) n s1
    (b, s2, ok)

/-- Modelled from the spec: decode of a transaction input. -/
def readTxInIgn (s : List Nat) : TxIn × List Nat × Bool :=
  let (op, s1, ok1) := readOutPointIgn s
  if !ok1 then ({ previousOutPoint := op }, s1, false)
  else
    let (scr, s2, ok2) := readVarBytesIgn s1
    if !ok2 then ({ previousOutPoint := op, signatureScript := scr }, s2, false)
    else match readU32scr s2 with
      | (none, s3) => ({ previousOutPoint := op, signatureScript := scr }, s3, false)
      | (some sq, s3) =>
        ({ previousOutPoint := op, signatureScript := scr, sequence := sq }, s3, true)

/-- Modelled from the spec: decode of a transaction output. -/
def readTxOutIgn (s : List Nat) : TxOut × List Nat × Bool :=
  match readU64scr s with
  | (none, s1) => ({}, s1, false)
  | (some v, s1) =>
    let (pk, s2, ok) := readVarBytesIgn s1
    ({ value := i64ofU64 v, pkScript := pk }, s2, ok)

/-- Modelled from the spec: decode of a declared count of inputs. -/
def readTxInLoop : Nat → List TxIn → List Nat → List TxIn × List Nat × Bool
  | 0, acc, s => (acc.reverse, s, true)
  | c + 1, acc, s =>
    let (ti, s1, ok) := readTxInIgn s
    if ok then readTxInLoop c (ti :: acc) s1 else ((ti :: acc).reverse, s1, false)

/-- Modelled from the spec: decode of a declared count of outputs. -/
def readTxOutLoop : Nat → List TxOut → List Nat → List TxOut × List Nat × Bool
  | 0, acc, s => (acc.reverse, s, true)
  | c + 1, acc, s =>
    let (txo, s1, ok) := readTxOutIgn s
    if ok then readTxOutLoop c (txo :: acc) s1 else ((txo :: acc).reverse, s1, false)

/-- Modelled from the spec: `MsgTx.BtcDecode` with the base encoding. -/
def msgTxBtcDecode (tx : MsgTx) (s : List Nat) : MsgTx × List Nat × Bool :=
  match readU32scr s with
  | (none, s1) => (tx, s1, false)
  | (some v, s1) =>
  let tx1 := { tx with version := i32ofU32 v }
  match ReadVarIntSt s1 with
  | (none, s2) => (tx1, s2, false)
  | (some nIn, s2) =>
  let (ins, s3, ok3) := readTxInLoop nIn [] s2
  let tx2 := { tx1 with txIn := ins }
  if !ok3 then (tx2, s3, false)
  else match ReadVarIntSt s3 with
  | (none, s4) => (tx2, s4, false)
  | (some nOut, s4) =>
  let (outs, s5, ok5) := readTxOutLoop nOut [] s4
  let tx3 := { tx2 with txOut := outs }
  if !ok5 then (tx3, s5, false)
  else match readU32scr s5 with
  | (none, s6) => (tx3, s6, false)
  | (some lt, s6) => ({ tx3 with lockTime := lt }, s6, true)

/-- Modelled from the spec: encode of a length-prefixed byte vector. -/
def writeVarBytes (b : List Nat) : List Nat := WriteVarInt b.length ++ b

/-- Modelled from the spec: encode of a 36-byte out point. -/
def writeOutPoint (op : OutPoint) : List Nat := op.hash ++ toLE 4 op.index

/-- Modelled from the spec: encode of a transaction input. -/
def writeTxIn (ti : TxIn) : List Nat :=
  writeOutPoint ti.previousOutPoint ++ writeVarBytes ti.signatureScript
    ++ toLE 4 ti.sequence

/-- Modelled from the spec: encode of a transaction output. -/
def writeTxOut (txo : TxOut) : List Nat :=
  toLE 8 (u64ofInt txo.value) ++ writeVarBytes txo.pkScript

/-- Modelled from the spec: `MsgTx.BtcEncode` with the base encoding. -/
def msgTxBtcEncode (tx : MsgTx) : List Nat :=
  toLE 4 (u32ofInt tx.version) ++ WriteVarInt tx.txIn.length
    ++ tx.txIn.foldr (fun ti acc => writeTxIn ti ++ acc) []
    ++ WriteVarInt tx.txOut.length
    ++ tx.txOut.foldr (fun txo acc => writeTxOut txo ++ acc) []
    ++ toLE 4 tx.lockTime

/-! ## The aux block header codec (`src/wire/auxblockheader.go`) -/

/-- Embedding of `ParentBlock.BtcDecode` from `src/wire/auxblockheader.go`:
`readElements` over version, previous-block hash, merkle root, timestamp,
bits and nonce, stopping at the first failure.  Its error is discarded by
`readAuxBlockHeader`, so it is a total state transformer with a flag. -/
def parentBlockBtcDecode (pb : ParentBlock) (s : List Nat) :
    ParentBlock × List Nat × Bool :=
  match readU32scr s with
  | (none, s1) => (pb, s1, false)
  | (some v, s1) =>
  let pb1 := { pb with version := i32ofU32 v }
  let (pbh, s2, ok2) := readFullInto pb1.prevBlock 32 s1
  let pb2 := { pb1 with prevBlock := pbh }
  if !ok2 then (pb2, s2, false)
  else
  let (mr, s3, ok3) := readFullInto pb2.merkleRoot 32 s2
  let pb3 := { pb2 with merkleRoot := mr }
  if !ok3 then (pb3, s3, false)
  else match readU32scr s3 with
  | (none, s4) => (pb3, s4, false)
  | (some ts, s4) =>
  let pb4 := { pb3 with timestamp := ts }
  match readU32scr s4 with
  | (none, s5) => (pb4, s5, false)
  | (some bts, s5) =>
  let pb5 := { pb4 with bits := bts }
  match readU32scr s5 with
  | (none, s6) => (pb5, s6, false)
  | (some nc, s6) => ({ pb5 with nonce := nc }, s6, true)

/-- Modelled from the spec: `writeBlockHeader` of the wire package (absent
from the sources), writing the six plain header fields; the final boolean
argument in the source call makes it skip the auxiliary payload. -/
def writeBlockHeaderExt (h : BlockHeader) : List Nat :=
  toLE 4 (u32ofInt h.version) ++ h.prevBlock ++ h.merkleRoot
    ++ toLE 4 h.timestamp ++ toLE 4 h.bits ++ toLE 4 h.nonce

/-- The hash-reading loop of `readAuxBlockHeader`: each iteration is
`readElement` on a 32-byte hash, whose failure aborts the whole decode. -/
def readHashesLoop : Nat → List Nat → Option (List (List Nat) × List Nat)
  | 0, s => some ([], s)
  | c + 1, s =>
    match readBytes 32 s with
    | none => none
    | some (h, s1) =>
      match readHashesLoop c s1 with
      | none => none
      | some (hs, s2) => some (h :: hs, s2)

/-- One merkle-branch section of `readAuxBlockHeader`: a varint count
(checked), the declared hashes (checked), then `readElement` applied to
the bitmask field passed by value, which consumes up to four bytes,
assigns nothing, and whose error is discarded. -/
def readMerkleBranchStep (s : List Nat) : Option (List (List Nat) × List Nat) :=
  match ReadVarIntSt s with
  | (none, _) => none
  | (some count, s1) =>
    match readHashesLoop count s1 with
    | none => none
    | some (hs, s2) => some (hs, s2.drop 4)

/-- The unchecked head of `readAuxBlockHeader`: the coinbase transaction
decode and the `readElements` on the parent block hash, both with their
errors discarded. -/
def readAuxPhase1 (bh : AuxBlockHeader) (s : List Nat) :
    AuxBlockHeader × List Nat :=
  let r1 := msgTxBtcDecode bh.parentCoinbase s
  let r2 := readFullInto bh.parentBlockHash 32 r1.2.1
  ({ bh with parentCoinbase := r1.1, parentBlockHash := r2.1 }, r2.2.1)

/-- Embedding of `readAuxBlockHeader` from `src/wire/auxblockheader.go`.
Only the two varint reads and the declared hash reads can make it return
an error; the coinbase decode, the parent-block-hash read, the two
bitmask reads and the parent header decode have their results discarded.
The branch bitmask fields of the receiver are never assigned. -/
def readAuxBlockHeader (pver : Nat) (bh : AuxBlockHeader) (s : List Nat) :
    Option (AuxBlockHeader × List Nat) :=
  let p1 := readAuxPhase1 bh s
  match readMerkleBranchStep p1.2 with
  | none => none
  | some (cbHs, s3) =>
    match readMerkleBranchStep s3 with
    | none => none
    | some (bcHs, s4) =>
      let ppb := parentBlockBtcDecode p1.1.parentBlock s4
      some ({ p1.1 with
              coinbaseBranch := { linkHashes := cbHs,
                                  branchSidesBitmask := p1.1.coinbaseBranch.branchSidesBitmask },
              blockchainBranch := { linkHashes := bcHs,
                                    branchSidesBitmask := p1.1.blockchainBranch.branchSidesBitmask },
              parentBlock := ppb.1 }, ppb.2.1)

/-- One merkle-branch section of `writeAuxBlockHeader`.  The source loop
calls `writeElements` with the protocol version and a pointer to the
slice element (itself a hash pointer); `writeElements` writes the
protocol version as a 4-byte little-endian element, then fails on the
double pointer before writing any hash byte, and the error is discarded,
so each declared hash contributes the 4 bytes of `pver` instead of its 32
hash bytes.  The bitmask is passed by value and is written as a 4-byte
little-endian `int32`. -/
def writeMerkleBranchGo (pver : Nat) (mb : MerkleBranch) : List Nat :=
  WriteVarInt mb.linkHashes.length
    ++ mb.linkHashes.foldr (fun _ acc => toLE 4 pver ++ acc) []
    ++ toLE 4 (u32ofInt mb.branchSidesBitmask)

/-- Embedding of `writeAuxBlockHeader` from `src/wire/auxblockheader.go`. -/
def writeAuxBlockHeader (pver : Nat) (bh : AuxBlockHeader) : List Nat :=
  msgTxBtcEncode bh.parentCoinbase
    ++ bh.parentBlockHash
    ++ writeMerkleBranchGo pver bh.coinbaseBranch
    ++ writeMerkleBranchGo pver bh.blockchainBranch
    ++ writeBlockHeaderExt (ParentBlock.ToBlockHeader bh.parentBlock)

/-! ## Concrete instances used by the theorems -/

/-- An aux header with empty branches and a nonzero coinbase bitmask. -/
def c1Header : AuxBlockHeader := { coinbaseBranch := { branchSidesBitmask := 7 } }

/-- A stream that ends right before the embedded parent block header:
empty coinbase transaction, 32-byte parent hash, and two empty branch
sections, then nothing. -/
def c2TruncStream : List Nat :=
  msgTxBtcEncode {} ++ List.replicate 32 5 ++ [0] ++ [1, 0, 0, 0] ++ [0] ++ [2, 0, 0, 0]

/-- A second stream ending right before the parent block header. -/
def c2TruncStream2 : List Nat :=
  msgTxBtcEncode {} ++ List.replicate 32 6 ++ [0] ++ [3, 0, 0, 0] ++ [0] ++ [4, 0, 0, 0]

/-- A stream truncated inside a declared merkle-branch hash list: the
first branch declares one hash but only 10 bytes follow. -/
def c2BadHashStream : List Nat :=
  msgTxBtcEncode {} ++ List.replicate 32 6 ++ [1] ++ List.replicate 10 9

/-- A merkle branch with one sibling hash and bitmask 3. -/
def c7Branch : MerkleBranch :=
  { linkHashes := [List.replicate 32 1], branchSidesBitmask := 3 }

/-- A well-formed stream whose two branch bitmask fields on the wire are
9 and 8 (little-endian), used to observe the decoded bitmask values. -/
def c9Stream : List Nat :=
  msgTxBtcEncode {} ++ List.replicate 32 7 ++ [0] ++ [9, 0, 0, 0] ++ [0] ++ [8, 0, 0, 0]

/-! ## Helper lemmas -/

set_option maxRecDepth 10000

/-- Go truncating division of a small negative height by 100000 is zero. -/
lemma tdiv_hundredk_small_neg {h : Int} (h1 : -99999 ≤ h) (h2 : h ≤ -1) :
    h.tdiv 100000 = 0 := by
  have hrw : h = -(-h) := by ring
  rw [hrw, Int.neg_tdiv, Int.tdiv_eq_ediv (by omega) (by norm_num)]
  omega

/-- The low-byte AND used by the AuxPoW flag test yields only 0 or 256. -/
lemma int32And_flag (v : Int) : int32And v 256 = 0 ∨ int32And v 256 = 256 := by
  unfold int32And i32ofU32
  have h256 : u32ofInt 256 = 256 := by decide
  rw [h256]
  have hand : Nat.land (u32ofInt v) 256 = ((u32ofInt v).testBit 8).toNat * 2 ^ 8 := by
    have := Nat.and_two_pow (u32ofInt v) 8
    simpa using this
  rw [hand]
  cases (u32ofInt v).testBit 8 <;> simp

/-! ## Claim theorems -/

/-- C1: the decode of the encode of an aux header is claimed to reproduce
it field-for-field, including empty branches.  Evaluating the code: for a
header with empty branches and coinbase bitmask 7, the round trip yields
the zero header instead — the encoder's branch loop writes the protocol
version bytes in place of each hash and the decoder discards the bitmask
bytes, so decode(encode(x)) loses the bitmask. -/
theorem decode_encode_roundtrip_fails :
    readAuxBlockHeader 0 zeroAuxBlockHeader (writeAuxBlockHeader 0 c1Header) =
      some (zeroAuxBlockHeader, []) ∧ zeroAuxBlockHeader ≠ c1Header := by
  decide

/-- C2 (counterexample): a byte stream that ends before the embedded
parent block header is fully read does not make the decode fail — the
decode reports success on `c2TruncStream`, which contains no parent
header bytes at all. -/
theorem readAuxBlockHeader_success_despite_truncation :
    (readAuxBlockHeader 0 zeroAuxBlockHeader c2TruncStream).isSome = true := by
  decide

/-- C2 (amended): the decode returns an error exactly when one of the two
merkle-branch sections fails (a varint read or a declared hash read); the
coinbase-transaction decode, the parent-block-hash read, the bitmask
reads and the parent-header decode have their errors discarded, so in
particular a stream ending before the parent header decodes successfully,
while a stream truncated inside a declared hash list fails. -/
theorem readAuxBlockHeader_error_surface :
    (∀ (pver : Nat) (bh : AuxBlockHeader) (s : List Nat),
      readAuxBlockHeader pver bh s = none ↔
        ((readMerkleBranchStep (readAuxPhase1 bh s).2).bind
          (fun p => readMerkleBranchStep p.2)) = none) ∧
    readAuxBlockHeader 0 zeroAuxBlockHeader c2TruncStream2 =
      some ({ parentBlockHash := List.replicate 32 6 }, []) ∧
    readAuxBlockHeader 0 zeroAuxBlockHeader c2BadHashStream = none := by
  refine ⟨?_, by decide, by decide⟩
  intro pver bh s
  unfold readAuxBlockHeader
  rcases h1 : readMerkleBranchStep (readAuxPhase1 bh s).2 with _ | ⟨cbHs, s3⟩
  · simp [h1]
  · rcases h2 : readMerkleBranchStep s3 with _ | ⟨bcHs, s4⟩ <;> simp [h1, h2]

/-- C3 (counterexample): the claimed fork-height values are not what the
code computes: `CalcBlockSubsidy 144999` is not 100000000000000 and
`CalcBlockSubsidy 145000` is not 50000000000000, because the shift count
144999 / 100000 truncates to 1, not 0. -/
theorem calcBlockSubsidy_not_claimed_fork_values :
    ¬ (CalcBlockSubsidy 144999 = some 100000000000000 ∧
       CalcBlockSubsidy 145000 = some 50000000000000) := by
  decide

/-- C3 (amended): at the fork heights the code returns
`CalcBlockSubsidy 144999 = 200000000000000` (one doubling step applied,
then doubled again) and `CalcBlockSubsidy 145000 = 100000000000000`. -/
theorem calcBlockSubsidy_fork_values :
    CalcBlockSubsidy 144999 = some 200000000000000 ∧
    CalcBlockSubsidy 145000 = some 100000000000000 := by
  decide

/-- C4: the subsidy schedule is the claimed piecewise function of the
height, with truncating division of the height by 100000 as the shift
count: doubled shifted base below the fork height, shifted base up to
600000, and the constant base beyond. -/
theorem calcBlockSubsidy_piecewise :
    (∀ h : Int, 0 ≤ h → h < 145000 →
      CalcBlockSubsidy h = some (50000000000000 * 2 ^ (h / 100000).toNat * 2)) ∧
    (∀ h : Int, 145000 ≤ h → h < 600000 →
      CalcBlockSubsidy h = some (50000000000000 * 2 ^ (h / 100000).toNat)) ∧
    (∀ h : Int, 600000 ≤ h → CalcBlockSubsidy h = some 50000000000000) := by
  refine ⟨?_, ?_, ?_⟩
  · intro h h0 hlt
    have htd : h.tdiv 100000 = h / 100000 := Int.tdiv_eq_ediv h0 (by norm_num)
    have hq0 : 0 ≤ h / 100000 := Int.ediv_nonneg h0 (by norm_num)
    simp only [CalcBlockSubsidy, digishieldBlockHeight, subsidyDecreaseBlockCount, baseSubsidy]
    rw [if_pos hlt, htd, if_neg (by omega)]
    have hcase : (h / 100000).toNat = 0 ∨ (h / 100000).toNat = 1 := by omega
    rcases hcase with hc | hc <;> rw [hc] <;> decide
  · intro h h1 h2
    have htd : h.tdiv 100000 = h / 100000 := Int.tdiv_eq_ediv (by omega) (by norm_num)
    simp only [CalcBlockSubsidy, digishieldBlockHeight, subsidyDecreaseBlockCount, baseSubsidy]
    rw [if_neg (by omega), if_pos (by omega), htd, if_neg (by omega)]
    have hcase : (h / 100000).toNat = 1 ∨ (h / 100000).toNat = 2 ∨ (h / 100000).toNat = 3 ∨
        (h / 100000).toNat = 4 ∨ (h / 100000).toNat = 5 := by omega
    rcases hcase with hc | hc | hc | hc | hc <;> rw [hc] <;> decide
  · intro h h1
    simp only [CalcBlockSubsidy, digishieldBlockHeight, baseSubsidy]
    rw [if_neg (by omega), if_neg (by omega)]

/-- Witness for C4: the three branches evaluated at heights 5, 145001 and
600000. -/
theorem calcBlockSubsidy_piecewise_witness :
    CalcBlockSubsidy 5 = some (50000000000000 * 2 ^ ((5 : Int) / 100000).toNat * 2) ∧
    CalcBlockSubsidy 145001 = some (50000000000000 * 2 ^ ((145001 : Int) / 100000).toNat) ∧
    CalcBlockSubsidy 600000 = some 50000000000000 :=
  ⟨calcBlockSubsidy_piecewise.1 5 (by norm_num) (by norm_num),
   calcBlockSubsidy_piecewise.2.1 145001 (by norm_num) (by norm_num),
   calcBlockSubsidy_piecewise.2.2 600000 (by norm_num)⟩

/-- C5: for every 32-bit signed version value, the AuxPoW version test
accepts exactly the versions at least 0x00620002 whose bit 8 is set, and
the three concrete values behave as claimed. -/
theorem isAuxPoWBlockVersion_iff :
    (∀ v : Int, -(2 ^ 31) ≤ v → v < 2 ^ 31 →
      (IsAuxPoWBlockVersion v = true ↔ (0x00620002 ≤ v ∧ int32And v 0x00000100 ≠ 0))) ∧
    IsAuxPoWBlockVersion 0x00620102 = true ∧
    IsAuxPoWBlockVersion 0x00620002 = false ∧
    IsAuxPoWBlockVersion 0x00000102 = false := by
  refine ⟨?_, by decide, by decide, by decide⟩
  intro v _ _
  have hf := int32And_flag v
  simp only [IsAuxPoWBlockVersion, blockMinVersionAuxpow, blockVersionFlagAuxpow,
    Bool.and_eq_true, decide_eq_true_eq]
  constructor
  · rintro ⟨ha, hb⟩
    exact ⟨ha, by omega⟩
  · rintro ⟨ha, hb⟩
    exact ⟨ha, by omega⟩

/-- Witness for C5: the equivalence applied at version 0x00620102. -/
theorem isAuxPoWBlockVersion_iff_witness :
    IsAuxPoWBlockVersion 0x00620102 = true ↔
      (0x00620002 ≤ (0x00620102 : Int) ∧ int32And 0x00620102 0x00000100 ≠ 0) :=
  isAuxPoWBlockVersion_iff.1 0x00620102 (by norm_num) (by norm_num)

/-- C6: the base version is the truncating (round-toward-zero) remainder
of the version by 256 — nonnegative inputs reduce with the Euclidean
remainder, negative inputs give the negated remainder of the absolute
value — and the concrete value 0x00620102 maps to 2. -/
theorem getBaseVersion_truncating :
    (∀ v : Int, GetBaseVersion v = if 0 ≤ v then v % 256 else -((-v) % 256)) ∧
    GetBaseVersion 0x00620102 = 2 := by
  refine ⟨?_, by decide⟩
  intro v
  cases v with
  | ofNat m =>
    rw [if_pos (show (0 : Int) ≤ Int.ofNat m from Int.ofNat_nonneg m)]
    rfl
  | negSucc m =>
    rw [if_neg (not_le.mpr (Int.negSucc_lt_zero m))]
    rfl

/-- C7: the branch encoder is claimed to write each 32-byte hash
verbatim after the varint count, for varint(N) + 32 N + 4 bytes in
total.  Evaluating the code on a branch with one hash: the output is
varint(1), the 4 little-endian bytes of the protocol version, and the
4-byte bitmask — 9 bytes, not 37, and the hash bytes never appear. -/
theorem writeMerkleBranch_writes_pver_not_hashes :
    writeMerkleBranchGo 0 c7Branch = [1, 0, 0, 0, 0, 3, 0, 0, 0] ∧
    (writeMerkleBranchGo 0 c7Branch).length = 9 ∧
    writeMerkleBranchGo 0 c7Branch ≠
      WriteVarInt 1 ++ List.replicate 32 1 ++ toLE 4 (u32ofInt 3) := by
  decide

/-- C8: the projection of a parent block into the plain header shape
copies the six shared fields unchanged and sets the auxiliary payload to
the zero value. -/
theorem toBlockHeader_projection : ∀ pb : ParentBlock,
    (ParentBlock.ToBlockHeader pb).version = pb.version ∧
    (ParentBlock.ToBlockHeader pb).prevBlock = pb.prevBlock ∧
    (ParentBlock.ToBlockHeader pb).merkleRoot = pb.merkleRoot ∧
    (ParentBlock.ToBlockHeader pb).timestamp = pb.timestamp ∧
    (ParentBlock.ToBlockHeader pb).bits = pb.bits ∧
    (ParentBlock.ToBlockHeader pb).nonce = pb.nonce ∧
    (ParentBlock.ToBlockHeader pb).auxData = zeroAuxBlockHeader :=
  fun _ => ⟨rfl, rfl, rfl, rfl, rfl, rfl, rfl⟩

/-- C9: whenever the decode of a fresh (zero-valued) header succeeds,
both branch bitmask fields of the result are 0 whatever bitmask bytes
the stream carried: the decoder consumes the four bitmask bytes of each
branch but never assigns them. -/
theorem decode_discards_bitmask :
    ∀ (pver : Nat) (s : List Nat) (h : AuxBlockHeader) (rest : List Nat),
    readAuxBlockHeader pver zeroAuxBlockHeader s = some (h, rest) →
    h.coinbaseBranch.branchSidesBitmask = 0 ∧
    h.blockchainBranch.branchSidesBitmask = 0 := by
  intro pver s h rest hdec
  simp only [readAuxBlockHeader] at hdec
  split at hdec
  · exact Option.noConfusion hdec
  · split at hdec
    · exact Option.noConfusion hdec
    · cases hdec
      exact ⟨rfl, rfl⟩

/-- Witness for C9: a successful decode of a stream carrying wire
bitmasks 9 and 8 still yields bitmask fields 0. -/
theorem decode_discards_bitmask_witness :
    ({ parentBlockHash := List.replicate 32 7 } :
        AuxBlockHeader).coinbaseBranch.branchSidesBitmask = 0 ∧
    ({ parentBlockHash := List.replicate 32 7 } :
        AuxBlockHeader).blockchainBranch.branchSidesBitmask = 0 :=
  decode_discards_bitmask 0 c9Stream _ [] (by decide)

/-- C10: for every height of at least -99999 the shift count is
non-negative, so the subsidy computation never reaches the negative-shift
panic; for heights -99999 to -1 it returns 100000000000000, the same
value as at height 0. -/
theorem calcBlockSubsidy_negative_heights :
    (∀ h : Int, -99999 ≤ h → (CalcBlockSubsidy h).isSome = true) ∧
    (∀ h : Int, -99999 ≤ h → h ≤ -1 → CalcBlockSubsidy h = some 100000000000000) ∧
    CalcBlockSubsidy 0 = some 100000000000000 := by
  refine ⟨?_, ?_, by decide⟩
  · intro h h1
    simp only [CalcBlockSubsidy, digishieldBlockHeight, subsidyDecreaseBlockCount, baseSubsidy]
    by_cases hc : h < 145000
    · rw [if_pos hc]
      have hs : 0 ≤ h.tdiv 100000 := by
        rcases le_or_lt 0 h with h0 | h0
        · exact Int.tdiv_nonneg h0 (by norm_num)
        · rw [tdiv_hundredk_small_neg h1 (by omega)]
      rw [if_neg (by omega)]
      rfl
    · rw [if_neg hc]
      by_cases hc2 : h < 600000
      · rw [if_pos hc2]
        have hs : 0 ≤ h.tdiv 100000 := Int.tdiv_nonneg (by omega) (by norm_num)
        rw [if_neg (by omega)]
        rfl
      · rw [if_neg hc2]
        rfl
  · intro h h1 h2
    simp only [CalcBlockSubsidy, digishieldBlockHeight, subsidyDecreaseBlockCount, baseSubsidy]
    rw [if_pos (by omega), tdiv_hundredk_small_neg h1 h2, if_neg (by omega)]
    decide

/-- Witness for C10: totality at height -99999 and the value at -5. -/
theorem calcBlockSubsidy_negative_heights_witness :
    (CalcBlockSubsidy (-99999)).isSome = true ∧
    CalcBlockSubsidy (-5) = some 100000000000000 :=
  ⟨calcBlockSubsidy_negative_heights.1 (-99999) (by norm_num),
   calcBlockSubsidy_negative_heights.2.1 (-5) (by norm_num) (by norm_num)⟩

end BtcdAux

